import Mathlib

/-!
Verification of the audio quality analysis and refinement pipeline
(src/audio_quality_analyzer.py and src/audio_refinement_processor.py).

Sample buffers are modelled as lists of rationals; the per-frame RMS series
and the harmonic/percussive energies, which the library computes through
irrational operations (square roots, FFT), are carried as explicit inputs.
Fallible computations (library calls that raise) are modelled with Option.
-/

set_option maxRecDepth 100000

namespace TTS

/-- Duration bucket of the composite score (analyze_audio_file, the
if/elif chain adding 25, 20, 15 or 5 points for duration). -/
def durationScore (duration : ℚ) : ℚ :=
  if 10 ≤ duration then 25
  else if 5 ≤ duration then 20
  else if 3 ≤ duration then 15
  else 5

/-- SNR bucket of the composite score (strict comparisons against 20, 10, 5). -/
def snrScore (snr : ℚ) : ℚ :=
  if 20 < snr then 25
  else if 10 < snr then 20
  else if 5 < snr then 15
  else 5

/-- Clarity bucket of the composite score from the harmonic/noise ratio
(strict comparisons against 2.0 and 1.0; the bottom bucket is 10). -/
def clarityScore (hnr : ℚ) : ℚ :=
  if 2 < hnr then 25
  else if 1 < hnr then 20
  else 10

/-- Completeness bucket of the composite score from the silence ratio
(strict comparisons against 0.1, 0.3, 0.5). -/
def completenessScore (silenceRatio : ℚ) : ℚ :=
  if silenceRatio < 1/10 then 25
  else if silenceRatio < 3/10 then 20
  else if silenceRatio < 1/2 then 15
  else 5

/-- Composite quality score: the source starts from 0.0 and adds the four
bucket terms in sequence, so the result is their literal sum. -/
def compositeScore (duration snr hnr silenceRatio : ℚ) : ℚ :=
  durationScore duration + snrScore snr + clarityScore hnr +
    completenessScore silenceRatio

/-- np.percentile with the default linear interpolation: sort ascending,
take position q per cent of the way through indices 0 .. n-1, and
interpolate linearly between the two neighbouring order statistics.
numpy raises on an empty input; callers guard that case. -/
def percentile (q : ℚ) (xs : List ℚ) : ℚ :=
  let s := List.insertionSort (fun a b => a ≤ b) xs
  if s.length = 0 then 0
  else
    let pos : ℚ := q * ((s.length : ℚ) - 1) / 100
    let i : ℕ := (⌊pos⌋).toNat
    let lo := s.getD i 0
    let hi := s.getD (i + 1) lo
    lo + (pos - (i : ℚ)) * (hi - lo)

/-- np.mean of a list (sum divided by length; the empty case is guarded by
callers, matching numpy, where it is nan). -/
def npMean (xs : List ℚ) : ℚ := xs.sum / (xs.length : ℚ)

/-- SNR estimate from the per-frame RMS series (analyze_audio_file,
Quality Layer 2): noise floor is the 10th percentile, speech frames are
those strictly above twice the noise floor, and the estimate is the mean
speech energy over the noise floor plus 1e-10, or 0.0 with no speech. -/
def estimateSNR (rms : List ℚ) : ℚ :=
  let energyThreshold := percentile 10 rms
  let speechEnergy := rms.filter (fun e => energyThreshold * 2 < e)
  if 0 < speechEnergy.length then
    npMean speechEnergy / (energyThreshold + 1/10000000000)
  else 0

/-- librosa.util.frame with the given frame length and hop: the analysis
frames are the windows of frameLength samples starting every hopLength
samples, the trailing partial frame dropped; librosa raises when the
input is shorter than one frame, modelled as none. -/
def frameSignal (y : List ℚ) (frameLength hopLength : ℕ) : Option (List (List ℚ)) :=
  if y.length < frameLength then none
  else some ((List.range (1 + (y.length - frameLength) / hopLength)).map
    (fun j => ((y.drop (j * hopLength)).take frameLength)))

/-- Per-frame energy: the sum of squared samples of each frame
(np.sum(frames ** 2, axis=0)). -/
def frameEnergySeries (frames : List (List ℚ)) : List ℚ :=
  frames.map (fun f => (f.map (fun x => x ^ 2)).sum)

/-- Silence metrics of analyze_audio_file (Quality Layer 5): frame the
buffer with frame length 2048 and hop 512, threshold the per-frame energy
at its 20th percentile, and derive effective duration and silence ratio
from the first and last frame strictly above the threshold; with no such
frame the effective duration is 0.0 and the silence ratio 1.0. The frame
step raises on a buffer shorter than one frame, giving none. -/
def silenceMetrics (y : List ℚ) (sr : ℕ) : Option (ℚ × ℚ) :=
  (frameSignal y 2048 512).map (fun frames =>
    let frameEnergy := frameEnergySeries frames
    let energyThreshold := percentile 20 frameEnergy
    let speechFrames := frameEnergy.map (fun e => decide (energyThreshold < e))
    let duration : ℚ := (y.length : ℚ) / (sr : ℚ)
    if speechFrames.any id then
      let speechStart : ℚ := (speechFrames.findIdx id : ℚ) * 512 / (sr : ℚ)
      let speechEnd : ℚ :=
        ((speechFrames.length - speechFrames.reverse.findIdx id : ℕ) : ℚ) * 512 / (sr : ℚ)
      let effectiveDuration := speechEnd - speechStart
      (effectiveDuration, 1 - effectiveDuration / duration)
    else (0, 1))

/-- Concrete buffer for the silence counterexample: 2048 zero samples
followed by 512 unit samples, giving exactly two analysis frames. -/
def caseY : List ℚ := List.replicate 2048 0 ++ List.replicate 512 1

/-- Peak absolute amplitude np.max(np.abs(y)) of stage_1_normalize_audio,
as the fold of max over absolute sample values (0 on the empty buffer,
where numpy raises; the claims concern nonempty buffers). The normalize
stage works over the reals because its target peak is irrational. -/
def peakAbs (y : List ℝ) : ℝ := (y.map (fun x => |x|)).foldr max 0

/-- Target peak of stage 1: 10 ** (-3 / 20), that is -3 dB. -/
noncomputable def targetPeak : ℝ := (10 : ℝ) ^ ((-3 : ℝ) / 20)

/-- Stage 1 of audio_refinement_processor: with positive peak every sample
is multiplied by target_peak / peak; an all-zero buffer is unchanged. -/
noncomputable def normalizeAudio (y : List ℝ) : List ℝ :=
  if 0 < peakAbs y then y.map (fun x => x * (targetPeak / peakAbs y)) else y

/-- The sliding-window loop of stage_5_extract_best_segment: scan window
start indices 0 .. n-1 left to right over the window score w, updating the
running (max_energy, best_start) state, initially (0, 0), whenever a
window score strictly exceeds the running maximum. -/
def bestStartLoop (w : ℕ → ℚ) (n : ℕ) : ℚ × ℕ :=
  (List.range n).foldl
    (fun acc i => if acc.1 < w i then (w i, i) else acc) ((0 : ℚ), 0)

/-- Best window start index of stage 5: the loop runs over the
len(frame_energy) - target_frames + 1 window positions, scoring each
window by the mean energy np.mean(frame_energy[i:i+target_frames]). -/
def bestStart (frameEnergy : List ℚ) (targetFrames : ℕ) : ℕ :=
  (bestStartLoop (fun i => npMean ((frameEnergy.drop i).take targetFrames))
    (frameEnergy.length - targetFrames + 1)).2

/-- Stage 5 of audio_refinement_processor: pass a buffer no longer than
target_duration through unchanged; otherwise frame it (2048/512), find the
window of int(target_duration x sr / 512) frames (clamped to the series
length) with maximal mean energy, and slice int(target_duration x sr)
samples from the winning start, shifting the slice backward when it would
overrun the end. The quantities passed to int() are nonnegative here, so
int() is the floor. The framing raises on a buffer shorter than one
frame, modelled as none. -/
def bestSegmentExtract (y : List ℚ) (sr : ℕ) (targetDuration : ℚ) : Option (List ℚ) :=
  if (y.length : ℚ) / (sr : ℚ) ≤ targetDuration then some y
  else
    (frameSignal y 2048 512).map (fun frames =>
      let frameEnergy := frameEnergySeries frames
      let targetFrames : ℕ :=
        min (⌊targetDuration * (sr : ℚ) / 512⌋).toNat frameEnergy.length
      let best := bestStart frameEnergy targetFrames
      let startSample := best * 512
      let endSample := startSample + (⌊targetDuration * (sr : ℚ)⌋).toNat
      if y.length < endSample then
        (y.drop (y.length - (⌊targetDuration * (sr : ℚ)⌋).toNat)).take
          (y.length - (y.length - (⌊targetDuration * (sr : ℚ)⌋).toNat))
      else (y.drop startSample).take (endSample - startSample))

/-- Decoded input to analyze_audio_file. The sample buffer and rate are
explicit; the per-frame RMS series (librosa.feature.rms, an irrational
square-root computation) and the harmonic/percussive energy pair of
librosa.effects.hpss are carried as oracle fields, with none standing for
an hpss call that raises. -/
structure AudioInput where
  samples : List ℚ
  sampleRate : ℕ
  rms : List ℚ
  hpss : Option (ℚ × ℚ)
deriving DecidableEq

/-- The per-file metrics of analyze_audio_file that later stages consume. -/
structure Metrics where
  duration : ℚ
  snrEstimate : ℚ
  harmonicNoiseRatio : ℚ
  effectiveDuration : ℚ
  silenceRatio : ℚ
  qualityScore : ℚ
deriving DecidableEq

/-- analyze_audio_file: the whole body runs inside one try/except that
returns None on any exception. The SNR estimate needs a nonempty RMS
series (np.percentile raises on an empty one); the harmonic/noise ratio
is harmonic energy over percussive energy plus 1e-10, its inner
try/except yielding the sentinel 1.0 when hpss raises; the silence
metrics raise (none) on a buffer shorter than one frame. The remaining
recorded scalar features (zcr, spectral moments) raise on no input the
silence framing accepts and play no part in the quality score, so they
are not modelled. -/
def analyzeAudioFile (inp : AudioInput) : Option Metrics :=
  if inp.rms = [] then none
  else
    match silenceMetrics inp.samples inp.sampleRate with
    | none => none
    | some (effectiveDuration, silenceRatio) =>
      let duration : ℚ := (inp.samples.length : ℚ) / (inp.sampleRate : ℚ)
      let snr := estimateSNR inp.rms
      let hnr : ℚ := match inp.hpss with
        | some (h, p) => h / (p + 1/10000000000)
        | none => 1
      some {
        duration := duration,
        snrEstimate := snr,
        harmonicNoiseRatio := hnr,
        effectiveDuration := effectiveDuration,
        silenceRatio := silenceRatio,
        qualityScore := compositeScore duration snr hnr silenceRatio }

/-- A file on disk as analyze_audio_file sees it: none models a file whose
decode (librosa.load) raises, caught by the same try/except. -/
def analyzeFile (file : Option AudioInput) : Option Metrics :=
  file.bind analyzeAudioFile

/-- Sorting of analyze_all_audio: a stable sort by quality score
descending (Python list.sort with reverse=True is stable, as is
insertion sort). -/
def sortDescendingByScore (results : List Metrics) : List Metrics :=
  List.insertionSort (fun a b => b.qualityScore ≤ a.qualityScore) results

/-- analyze_all_audio: analyze each file in order, append the metrics of
the successful ones, skip the ones returning None, then sort by quality
score descending. -/
def analyzeAllAudio (files : List (Option AudioInput)) : List Metrics :=
  sortDescendingByScore
    (files.foldl (fun acc f =>
      match analyzeFile f with
      | some m => acc ++ [m]
      | none => acc) [])

/-- filter_high_quality: the loop keeps, in encounter order, the records
with quality_score at least min_score, duration at least min_duration and
silence_ratio at most max_silence. -/
def filterHighQuality (results : List Metrics)
    (minScore minDuration maxSilence : ℚ) : List Metrics :=
  results.foldl (fun filtered r =>
    if minScore ≤ r.qualityScore ∧ minDuration ≤ r.duration ∧
        r.silenceRatio ≤ maxSilence then
      filtered ++ [r]
    else filtered) []

/-- One refinement stage other than stage 3 (process_audio_file): with a
missing input file the load raises and the stage reports failure without
writing; otherwise the stage core either writes its output and reports
success, or raises internally, writes nothing and reports failure. -/
def runStage (f : List ℚ → Option (List ℚ)) :
    Option (List ℚ) → Option (List ℚ) × Bool
  | none => (none, false)
  | some b =>
    match f b with
    | some out => (some out, true)
    | none => (none, false)

/-- Stage 3 (stage_3_noise_reduction): on an internal failure the except
block copies the input file to the output path unchanged and reports
failure; with a missing input file both the load and the fallback copy
raise, an exception the caller does not catch (outer none). -/
def runStage3 (f : List ℚ → Option (List ℚ)) :
    Option (List ℚ) → Option (Option (List ℚ) × Bool)
  | none => none
  | some b =>
    some (match f b with
      | some out => (some out, true)
      | none => (some b, false))

/-- process_audio_file: run the five stages in order, each consuming the
file the previous stage wrote, AND-ing the five success flags; the run
reports success exactly when every stage succeeded and the final file
exists. The result pairs the reported success with the persisted final
buffer; outer none is an uncaught exception. -/
def processAudioFile (f1 f2 f3 f4 f5 : List ℚ → Option (List ℚ))
    (input : List ℚ) : Option (Bool × Option (List ℚ)) :=
  let r1 := runStage f1 (some input)
  let r2 := runStage f2 r1.1
  match runStage3 f3 r2.1 with
  | none => none
  | some r3 =>
    let r4 := runStage f4 r3.1
    let r5 := runStage f5 r4.1
    some (((((r1.2 && r2.2) && r3.2) && r4.2) && r5.2) && r5.1.isSome, r5.1)

/-- A stage whose core always succeeds and writes its input unchanged. -/
def idStage : List ℚ → Option (List ℚ) := fun b => some b

/-- A stage whose core always raises internally. -/
def failStage : List ℚ → Option (List ℚ) := fun _ => none

/-- A decoded file with a single sample: shorter than one analysis frame,
so its framing raises. Fields: samples, sample rate, RMS series, hpss. -/
def shortInput : AudioInput := ⟨[1], 22050, [1], some (1, 1)⟩

/-- An all-zero one-frame buffer with all-zero RMS series and failing
hpss: the degenerate input of the sentinel claims. -/
def zeroInput : AudioInput := ⟨List.replicate 2048 0, 22050, [0], none⟩

theorem durationScore_bounds (d : ℚ) :
    5 ≤ durationScore d ∧ durationScore d ≤ 25 := by
  unfold durationScore; split_ifs <;> norm_num

theorem snrScore_bounds (s : ℚ) : 5 ≤ snrScore s ∧ snrScore s ≤ 25 := by
  unfold snrScore; split_ifs <;> norm_num

theorem clarityScore_bounds (h : ℚ) :
    10 ≤ clarityScore h ∧ clarityScore h ≤ 25 := by
  unfold clarityScore; split_ifs <;> norm_num

theorem completenessScore_bounds (r : ℚ) :
    5 ≤ completenessScore r ∧ completenessScore r ≤ 25 := by
  unfold completenessScore; split_ifs <;> norm_num

/-- C1: the composite quality score equals the literal sum of the four
bucket terms selected by the fixed thresholds and lies in [20,100];
the scenario with duration 11, SNR 25, HNR 2.5, silence 0.05 scores 100,
and the scenario with duration 2, SNR 1, HNR 0.5, silence 0.9 scores 25. -/
theorem compositeScore_sum_bounds_scenarios :
    (∀ d s h r : ℚ,
      compositeScore d s h r =
        durationScore d + snrScore s + clarityScore h + completenessScore r ∧
      20 ≤ compositeScore d s h r ∧ compositeScore d s h r ≤ 100) ∧
    compositeScore 11 25 (5/2) (1/20) = 100 ∧
    compositeScore 2 1 (1/2) (9/10) = 25 := by
  refine ⟨fun d s h r => ⟨rfl, ?_, ?_⟩, by with_unfolding_all decide, by with_unfolding_all decide⟩
  · have h1 := (durationScore_bounds d).1
    have h2 := (snrScore_bounds s).1
    have h3 := (clarityScore_bounds h).1
    have h4 := (completenessScore_bounds r).1
    unfold compositeScore; linarith
  · have h1 := (durationScore_bounds d).2
    have h2 := (snrScore_bounds s).2
    have h3 := (clarityScore_bounds h).2
    have h4 := (completenessScore_bounds r).2
    unfold compositeScore; linarith

/-- C2 counterexample: the input hitting every minimum bucket (duration 2,
SNR 1, HNR 0.5, silence 0.9) scores 25, not 20: the sum of the minimum
buckets is 5 + 5 + 10 + 5 = 25, so the attainable minimum is not 20. -/
theorem compositeScore_min_is_25_not_20 :
    compositeScore 2 1 (1/2) (9/10) = 25 ∧ (25 : ℚ) ≠ 20 := by with_unfolding_all decide

/-- C2 amended: the attainable range of the composite score is exactly
[25,100]: every score is between 25 and 100, and both ends are attained. -/
theorem compositeScore_range :
    (∀ d s h r : ℚ,
      25 ≤ compositeScore d s h r ∧ compositeScore d s h r ≤ 100) ∧
    compositeScore 1 0 0 1 = 25 ∧ compositeScore 10 21 3 0 = 100 := by
  refine ⟨fun d s h r => ⟨?_, ?_⟩, by with_unfolding_all decide, by with_unfolding_all decide⟩
  · have h1 := (durationScore_bounds d).1
    have h2 := (snrScore_bounds s).1
    have h3 := (clarityScore_bounds h).1
    have h4 := (completenessScore_bounds r).1
    unfold compositeScore; linarith
  · have h1 := (durationScore_bounds d).2
    have h2 := (snrScore_bounds s).2
    have h3 := (clarityScore_bounds h).2
    have h4 := (completenessScore_bounds r).2
    unfold compositeScore; linarith

/-- C3: the SNR estimate takes the 10th percentile of the RMS series as
noise floor, keeps the frames strictly above twice the noise floor, and
returns their mean over the noise floor plus 1e-10 when any exist,
otherwise 0.0. -/
theorem estimateSNR_spec (rms : List ℚ) :
    (rms.filter (fun e => 2 * percentile 10 rms < e) ≠ [] →
      estimateSNR rms =
        npMean (rms.filter (fun e => 2 * percentile 10 rms < e)) /
          (percentile 10 rms + 1/10000000000)) ∧
    (rms.filter (fun e => 2 * percentile 10 rms < e) = [] →
      estimateSNR rms = 0) := by
  have hfe : rms.filter (fun e => percentile 10 rms * 2 < e) =
      rms.filter (fun e => 2 * percentile 10 rms < e) := by
    apply List.filter_congr
    intro x _
    rw [mul_comm]
  constructor
  · intro hne
    have hlen : 0 < (rms.filter (fun e => 2 * percentile 10 rms < e)).length :=
      List.length_pos.mpr hne
    simp only [estimateSNR]
    rw [hfe, if_pos hlen]
  · intro heq
    simp only [estimateSNR]
    rw [hfe, heq]
    simp

/-- C3 witness: on the series [0, 0, 1] the noise floor is 0, the single
speech frame is 1, and the estimate is the stated quotient. -/
theorem estimateSNR_spec_witness :
    ([(0 : ℚ), 0, 1].filter (fun e => 2 * percentile 10 [0, 0, 1] < e) ≠ []) ∧
    estimateSNR [0, 0, 1] =
      npMean ([(0 : ℚ), 0, 1].filter (fun e => 2 * percentile 10 [0, 0, 1] < e)) /
        (percentile 10 [0, 0, 1] + 1/10000000000) :=
  ⟨by with_unfolding_all decide,
    (estimateSNR_spec [0, 0, 1]).1 (by with_unfolding_all decide)⟩

theorem caseY_length : caseY.length = 2560 := by
  simp [caseY]

theorem caseY_frames :
    frameSignal caseY 2048 512 =
      some [List.replicate 2048 0, List.replicate 1536 0 ++ List.replicate 512 1] := by
  unfold frameSignal
  rw [if_neg (by rw [caseY_length]; omega), caseY_length,
    show (1 + (2560 - 2048) / 512 : ℕ) = 2 from by norm_num,
    show List.range 2 = [0, 1] from rfl]
  simp only [List.map_cons, List.map_nil]
  have h0 : (caseY.drop (0 * 512)).take 2048 = List.replicate 2048 (0 : ℚ) := by
    rw [Nat.zero_mul, List.drop_zero, caseY, List.take_left' (by simp)]
  have h1 : (caseY.drop (1 * 512)).take 2048 =
      List.replicate 1536 (0 : ℚ) ++ List.replicate 512 1 := by
    rw [Nat.one_mul, caseY,
      show List.replicate 2048 (0 : ℚ) = List.replicate 512 0 ++ List.replicate 1536 0 from
        by rw [← List.replicate_add],
      List.append_assoc, List.drop_left' (by simp),
      List.take_of_length_le (by simp)]
  rw [h0, h1]

theorem caseY_energies :
    frameEnergySeries [List.replicate 2048 (0 : ℚ),
      List.replicate 1536 0 ++ List.replicate 512 1] = [0, 512] := by
  unfold frameEnergySeries
  simp only [List.map_cons, List.map_nil, List.map_append, List.map_replicate,
    List.sum_append, List.sum_replicate]
  norm_num

/-- C4 counterexample: on the buffer of 2048 zeros followed by 512 ones the
frame energies are [0, 512], the 20th percentile threshold is 512/5, the
single speech frame has first index 1 and last index 1, so the claimed
formula (last - first) x hop / sr yields 0; the code yields effective
duration 512/22050, which is not 0, and silence ratio 4/5. -/
theorem silenceMetrics_offbyone_cex :
    (frameSignal caseY 2048 512).map frameEnergySeries = some [0, 512] ∧
    percentile 20 [(0 : ℚ), 512] = 512/5 ∧
    ([(0 : ℚ), 512].map (fun e => decide ((512 : ℚ)/5 < e))) = [false, true] ∧
    [false, true].findIdx id = 1 ∧
    [false, true].length - 1 - [false, true].reverse.findIdx id = 1 ∧
    silenceMetrics caseY 22050 = some (512/22050, 4/5) ∧
    ((1 : ℚ) - 1) * 512 / 22050 = 0 ∧ ((512 : ℚ)/22050) ≠ 0 := by
  refine ⟨?_, ?_, ?_, by decide, by decide, ?_, by norm_num, by norm_num⟩
  · rw [caseY_frames, Option.map_some', caseY_energies]
  · with_unfolding_all decide
  · with_unfolding_all decide
  · unfold silenceMetrics
    rw [caseY_frames, Option.map_some']
    simp only []
    rw [caseY_energies, caseY_length]
    have hperc : percentile 20 [(0 : ℚ), 512] = 512/5 := by with_unfolding_all decide
    simp only [hperc, List.map_cons, List.map_nil,
      decide_eq_false (by norm_num : ¬((512 : ℚ)/5 < 0)),
      decide_eq_true (by norm_num : (512 : ℚ)/5 < 512)]
    rw [if_pos (show ([false, true].any id) = true from rfl)]
    simp only [show List.findIdx id ([false, true] : List Bool).reverse = 0 from rfl,
      show List.findIdx id ([false, true] : List Bool) = 1 from rfl,
      show ([false, true] : List Bool).length = 2 from rfl]
    norm_num

/-- C4 amended: with at least one full frame, the silence metrics threshold
the per-frame energy at its 20th percentile; when some frame exceeds it,
effective duration = (last speech frame index - first speech frame index
+ 1) x 512 / sr and silence ratio = 1 - effective / total duration;
otherwise effective duration is 0.0 and silence ratio 1.0. -/
theorem silenceMetrics_spec (y : List ℚ) (sr : ℕ) (hlen : 2048 ≤ y.length) :
    ∃ fe : List ℚ,
      (frameSignal y 2048 512).map frameEnergySeries = some fe ∧
      (let flags := fe.map (fun e => decide (percentile 20 fe < e))
       let first : ℚ := (flags.findIdx id : ℕ)
       let last : ℚ := ((flags.length - 1 - flags.reverse.findIdx id : ℕ) : ℚ)
       let effective : ℚ := (last + 1 - first) * 512 / (sr : ℚ)
       (flags.any id = true →
         silenceMetrics y sr =
           some (effective, 1 - effective / ((y.length : ℚ) / (sr : ℚ)))) ∧
       (flags.any id = false → silenceMetrics y sr = some (0, 1))) := by
  have hfs : frameSignal y 2048 512 =
      some ((List.range (1 + (y.length - 2048) / 512)).map
        (fun j => ((y.drop (j * 512)).take 2048))) := by
    unfold frameSignal
    rw [if_neg (Nat.not_lt.mpr hlen)]
  refine ⟨_, by rw [hfs, Option.map_some'], ?_⟩
  simp only []
  constructor
  · intro hany
    have hex : ∃ x, x ∈ ((frameEnergySeries ((List.range (1 + (y.length - 2048) / 512)).map
        (fun j => ((y.drop (j * 512)).take 2048)))).map (fun e =>
          decide (percentile 20 (frameEnergySeries
            ((List.range (1 + (y.length - 2048) / 512)).map
              (fun j => ((y.drop (j * 512)).take 2048)))) < e))).reverse ∧
        id x = true := by
      simpa using List.any_eq_true.mp hany
    have hrev := List.findIdx_lt_length_of_exists hex
    rw [List.length_reverse] at hrev
    unfold silenceMetrics
    rw [hfs, Option.map_some']
    simp only []
    rw [if_pos hany]
    have heff : ∀ n first rev : ℕ, rev < n →
        ((n - rev : ℕ) : ℚ) * 512 / (sr : ℚ) - (first : ℕ) * 512 / (sr : ℚ) =
          ((((n - 1 - rev : ℕ) : ℚ) + 1 - ((first : ℕ) : ℚ))) * 512 / (sr : ℚ) := by
      intro n first rev h
      rw [div_sub_div_same]
      congr 1
      rw [show n - rev = (n - 1 - rev) + 1 from by omega]
      push_cast
      ring
    rw [heff _ _ _ hrev]
  · intro hnone
    unfold silenceMetrics
    rw [hfs, Option.map_some']
    simp only []
    rw [if_neg (by rw [hnone]; exact Bool.false_ne_true)]

/-- C4 witness: the amended silence formula applied to the concrete
2560-sample buffer. -/
theorem silenceMetrics_spec_witness :
    2048 ≤ caseY.length ∧
    (∃ fe : List ℚ,
      (frameSignal caseY 2048 512).map frameEnergySeries = some fe ∧
      (let flags := fe.map (fun e => decide (percentile 20 fe < e))
       let first : ℚ := (flags.findIdx id : ℕ)
       let last : ℚ := ((flags.length - 1 - flags.reverse.findIdx id : ℕ) : ℚ)
       let effective : ℚ := (last + 1 - first) * 512 / ((22050 : ℕ) : ℚ)
       (flags.any id = true →
         silenceMetrics caseY 22050 =
           some (effective, 1 - effective / ((caseY.length : ℚ) / ((22050 : ℕ) : ℚ)))) ∧
       (flags.any id = false → silenceMetrics caseY 22050 = some (0, 1)))) :=
  ⟨by rw [caseY_length]; omega, silenceMetrics_spec caseY 22050 (by rw [caseY_length]; omega)⟩

theorem peakAbs_nonneg (y : List ℝ) : 0 ≤ peakAbs y := by
  induction y with
  | nil => exact le_refl 0
  | cons a t ih =>
    exact le_trans ih (le_max_right _ _)

theorem peakAbs_cons (a : ℝ) (t : List ℝ) :
    peakAbs (a :: t) = max |a| (peakAbs t) := rfl

theorem peakAbs_map_mul (y : List ℝ) (c : ℝ) (hc : 0 ≤ c) :
    peakAbs (y.map (fun x => x * c)) = peakAbs y * c := by
  induction y with
  | nil => simp [peakAbs]
  | cons a t ih =>
    rw [List.map_cons, peakAbs_cons, peakAbs_cons, ih, max_mul_of_nonneg _ _ hc,
      abs_mul, abs_of_nonneg hc]

theorem targetPeak_pos : 0 < targetPeak := by
  rw [targetPeak]; positivity

/-- C7: with positive peak, Normalize multiplies every sample by
target_peak / peak, and the output peak is exactly the -3 dB target
10 ** (-3/20); with zero peak the buffer is returned unchanged. -/
theorem normalizeAudio_spec (y : List ℝ) :
    (0 < peakAbs y →
      normalizeAudio y = y.map (fun x => x * (targetPeak / peakAbs y)) ∧
      peakAbs (normalizeAudio y) = targetPeak) ∧
    (peakAbs y = 0 → normalizeAudio y = y) := by
  constructor
  · intro hpos
    refine ⟨by rw [normalizeAudio, if_pos hpos], ?_⟩
    rw [normalizeAudio, if_pos hpos,
      peakAbs_map_mul _ _ (div_nonneg targetPeak_pos.le (peakAbs_nonneg y)),
      mul_comm, div_mul_cancel₀ _ (ne_of_gt hpos)]
  · intro hzero
    rw [normalizeAudio, if_neg (by rw [hzero]; exact lt_irrefl 0)]

/-- C7 witness: the single-sample buffer [1] has peak 1, is rescaled by
the target peak, and its output peak is the target peak. -/
theorem normalizeAudio_spec_witness :
    0 < peakAbs [1] ∧
    (normalizeAudio [1] = [(1 : ℝ)].map (fun x => x * (targetPeak / peakAbs [1])) ∧
      peakAbs (normalizeAudio [1]) = targetPeak) :=
  ⟨by norm_num [peakAbs], (normalizeAudio_spec [1]).1 (by norm_num [peakAbs])⟩

theorem bestStartLoop_spec (w : ℕ → ℚ) (hw : ∀ i, 0 ≤ w i) :
    ∀ n : ℕ, 0 < n →
      ∃ m b, bestStartLoop w n = (m, b) ∧ b < n ∧ m = w b ∧
        (∀ j, j < n → w j ≤ m) ∧ (∀ j, j < b → w j < m) := by
  intro n
  induction n with
  | zero => exact fun h => absurd h (lt_irrefl 0)
  | succ k ih =>
    intro _
    unfold bestStartLoop at ih ⊢
    rw [List.range_succ, List.foldl_append]
    rcases Nat.eq_zero_or_pos k with rfl | hk
    · simp only [List.range_zero, List.foldl_nil, List.foldl_cons]
      dsimp only
      by_cases h0 : (0 : ℚ) < w 0
      · rw [if_pos h0]
        exact ⟨w 0, 0, rfl, Nat.one_pos, rfl,
          fun j hj => by interval_cases j; exact le_refl _,
          fun j hj => absurd hj (Nat.not_lt_zero j)⟩
      · rw [if_neg h0]
        have hw0 : w 0 = 0 := le_antisymm (not_lt.mp h0) (hw 0)
        exact ⟨0, 0, rfl, Nat.one_pos, hw0.symm,
          fun j hj => by interval_cases j; exact le_of_eq hw0,
          fun j hj => absurd hj (Nat.not_lt_zero j)⟩
    · obtain ⟨m, b, heq, hb, hmb, hall, hstrict⟩ := ih hk
      rw [heq]
      simp only [List.foldl_cons, List.foldl_nil]
      dsimp only
      by_cases hlt : m < w k
      · rw [if_pos hlt]
        refine ⟨w k, k, rfl, Nat.lt_succ_self k, rfl, ?_, ?_⟩
        · intro j hj
          rcases (by omega : j < k ∨ j = k) with h | rfl
          · exact le_of_lt (lt_of_le_of_lt (hall j h) hlt)
          · exact le_refl _
        · intro j hj
          exact lt_of_le_of_lt (hall j hj) hlt
      · rw [if_neg hlt]
        refine ⟨m, b, rfl, Nat.lt_succ_of_lt hb, hmb, ?_, hstrict⟩
        intro j hj
        rcases (by omega : j < k ∨ j = k) with h | rfl
        · exact hall j h
        · exact not_lt.mp hlt

theorem bestStart_spec (fe : List ℚ) (tf : ℕ) (hfe : ∀ x ∈ fe, 0 ≤ x) :
    bestStart fe tf < fe.length - tf + 1 ∧
    (∀ j, j < fe.length - tf + 1 →
      npMean ((fe.drop j).take tf) ≤ npMean ((fe.drop (bestStart fe tf)).take tf)) ∧
    (∀ j, j < bestStart fe tf →
      npMean ((fe.drop j).take tf) < npMean ((fe.drop (bestStart fe tf)).take tf)) := by
  have hw : ∀ i, 0 ≤ npMean ((fe.drop i).take tf) := by
    intro i
    apply div_nonneg
    · exact List.sum_nonneg
        (fun x hx => hfe x (List.mem_of_mem_drop (List.mem_of_mem_take hx)))
    · exact Nat.cast_nonneg _
  obtain ⟨m, b, heq, hb, hmb, hall, hstrict⟩ :=
    bestStartLoop_spec (fun i => npMean ((fe.drop i).take tf)) hw
      (fe.length - tf + 1) (Nat.succ_pos _)
  unfold bestStart
  rw [heq]
  refine ⟨hb, fun j hj => ?_, fun j hj => ?_⟩
  · have := hall j hj
    rw [hmb] at this
    exact this
  · have := hstrict j hj
    rw [hmb] at this
    exact this

theorem frameEnergySeries_nonneg (frames : List (List ℚ)) :
    ∀ x ∈ frameEnergySeries frames, 0 ≤ x := by
  intro x hx
  obtain ⟨f, _, rfl⟩ := List.mem_map.mp hx
  exact List.sum_nonneg (fun z hz => by
    obtain ⟨a, _, rfl⟩ := List.mem_map.mp hz
    exact sq_nonneg a)

/-- C8 counterexample: a 16-sample buffer at sample rate 1 has duration 16,
longer than the 15 second target, yet the stage fails (the buffer is
shorter than one analysis frame) and returns no samples at all instead of
round(15 x 1) samples. -/
theorem bestSegmentExtract_short_cex :
    15 < ((List.replicate 16 (1 : ℚ)).length : ℚ) / ((1 : ℕ) : ℚ) ∧
    bestSegmentExtract (List.replicate 16 1) 1 15 = none := by
  constructor
  · norm_num
  · unfold bestSegmentExtract
    rw [if_neg (by norm_num)]
    unfold frameSignal
    rw [if_pos (by norm_num)]
    rfl

/-- C8 amended: a buffer with duration at most 15 s passes through
unchanged; a longer buffer shorter than one analysis frame makes the
stage fail with no output; a longer buffer of at least one frame yields
exactly int(15 x sr) samples, taken from the leftmost window of
min(int(15 x sr / 512), number of frames) frames whose mean energy is
maximal (strictly greater comparison), the slice shifted backward when it
would overrun the end of the buffer. -/
theorem bestSegmentExtract_spec (y : List ℚ) (sr : ℕ) :
    ((y.length : ℚ) / (sr : ℚ) ≤ 15 → bestSegmentExtract y sr 15 = some y) ∧
    (15 < (y.length : ℚ) / (sr : ℚ) → y.length < 2048 →
      bestSegmentExtract y sr 15 = none) ∧
    (15 < (y.length : ℚ) / (sr : ℚ) → 2048 ≤ y.length →
      ∃ fe : List ℚ,
        (frameSignal y 2048 512).map frameEnergySeries = some fe ∧
        (let tf := min ((15 * sr) / 512) fe.length
         let best := bestStart fe tf
         ∃ seg : List ℚ,
           bestSegmentExtract y sr 15 = some seg ∧
           seg.length = 15 * sr ∧
           best < fe.length - tf + 1 ∧
           (∀ j, j < fe.length - tf + 1 →
             npMean ((fe.drop j).take tf) ≤ npMean ((fe.drop best).take tf)) ∧
           (∀ j, j < best →
             npMean ((fe.drop j).take tf) < npMean ((fe.drop best).take tf)) ∧
           seg = (y.drop (if y.length < best * 512 + 15 * sr
             then y.length - 15 * sr else best * 512)).take (15 * sr))) := by
  refine ⟨fun hle => by unfold bestSegmentExtract; rw [if_pos hle],
    fun hgt hshort => ?_, fun hgt hlong => ?_⟩
  · unfold bestSegmentExtract
    rw [if_neg (not_le.mpr hgt)]
    unfold frameSignal
    rw [if_pos hshort]
    rfl
  · have hsr : 0 < sr := by
      rcases Nat.eq_zero_or_pos sr with rfl | hsr
      · rw [Nat.cast_zero, div_zero] at hgt
        exact absurd hgt (by norm_num)
      · exact hsr
    have hlen15 : 15 * sr < y.length := by
      have h2 : (15 : ℚ) * (sr : ℚ) < (y.length : ℚ) := by
        rw [lt_div_iff₀ (by exact_mod_cast hsr : (0 : ℚ) < (sr : ℚ))] at hgt
        linarith
      exact_mod_cast h2
    have hfs : frameSignal y 2048 512 =
        some ((List.range (1 + (y.length - 2048) / 512)).map
          (fun j => ((y.drop (j * 512)).take 2048))) := by
      unfold frameSignal
      rw [if_neg (Nat.not_lt.mpr hlong)]
    have hT : (⌊(15 : ℚ) * ((sr : ℕ) : ℚ)⌋).toNat = 15 * sr := by
      rw [show (15 : ℚ) * ((sr : ℕ) : ℚ) = ((15 * sr : ℕ) : ℚ) from by push_cast; ring,
        Int.floor_natCast, Int.toNat_natCast]
    have hTf : (⌊(15 : ℚ) * ((sr : ℕ) : ℚ) / 512⌋).toNat = (15 * sr) / 512 := by
      rw [Int.floor_toNat,
        show (15 : ℚ) * ((sr : ℕ) : ℚ) = ((15 * sr : ℕ) : ℚ) from by push_cast; ring,
        show (512 : ℚ) = ((512 : ℕ) : ℚ) from by norm_num,
        Nat.floor_div_nat, Nat.floor_natCast]
    refine ⟨frameEnergySeries ((List.range (1 + (y.length - 2048) / 512)).map
      (fun j => ((y.drop (j * 512)).take 2048))), by rw [hfs, Option.map_some'], ?_⟩
    simp only []
    obtain ⟨hblt, hopt, hstrict⟩ := bestStart_spec
      (frameEnergySeries ((List.range (1 + (y.length - 2048) / 512)).map
        (fun j => ((y.drop (j * 512)).take 2048))))
      (min ((15 * sr) / 512)
        (frameEnergySeries ((List.range (1 + (y.length - 2048) / 512)).map
          (fun j => ((y.drop (j * 512)).take 2048)))).length)
      (frameEnergySeries_nonneg _)
    have hbse : bestSegmentExtract y sr 15 = some (
        if y.length < bestStart
            (frameEnergySeries ((List.range (1 + (y.length - 2048) / 512)).map
              (fun j => ((y.drop (j * 512)).take 2048))))
            (min ((15 * sr) / 512)
              (frameEnergySeries ((List.range (1 + (y.length - 2048) / 512)).map
                (fun j => ((y.drop (j * 512)).take 2048)))).length) * 512 + 15 * sr then
          (y.drop (y.length - 15 * sr)).take (y.length - (y.length - 15 * sr))
        else
          (y.drop (bestStart
            (frameEnergySeries ((List.range (1 + (y.length - 2048) / 512)).map
              (fun j => ((y.drop (j * 512)).take 2048))))
            (min ((15 * sr) / 512)
              (frameEnergySeries ((List.range (1 + (y.length - 2048) / 512)).map
                (fun j => ((y.drop (j * 512)).take 2048)))).length) * 512)).take
            (bestStart
              (frameEnergySeries ((List.range (1 + (y.length - 2048) / 512)).map
                (fun j => ((y.drop (j * 512)).take 2048))))
              (min ((15 * sr) / 512)
                (frameEnergySeries ((List.range (1 + (y.length - 2048) / 512)).map
                  (fun j => ((y.drop (j * 512)).take 2048)))).length) * 512 + 15 * sr -
              bestStart
                (frameEnergySeries ((List.range (1 + (y.length - 2048) / 512)).map
                  (fun j => ((y.drop (j * 512)).take 2048))))
                (min ((15 * sr) / 512)
                  (frameEnergySeries ((List.range (1 + (y.length - 2048) / 512)).map
                    (fun j => ((y.drop (j * 512)).take 2048)))).length) * 512)) := by
      unfold bestSegmentExtract
      rw [if_neg (not_le.mpr hgt), hfs, Option.map_some']
      simp only []
      rw [hT, hTf]
    refine ⟨_, hbse, ?_, hblt, hopt, hstrict, ?_⟩
    · by_cases hc : y.length < bestStart
          (frameEnergySeries ((List.range (1 + (y.length - 2048) / 512)).map
            (fun j => ((y.drop (j * 512)).take 2048))))
          (min ((15 * sr) / 512)
            (frameEnergySeries ((List.range (1 + (y.length - 2048) / 512)).map
              (fun j => ((y.drop (j * 512)).take 2048)))).length) * 512 + 15 * sr
      · rw [if_pos hc]
        rw [List.length_take, List.length_drop]
        omega
      · rw [if_neg hc]
        rw [List.length_take, List.length_drop]
        omega
    · by_cases hc : y.length < bestStart
          (frameEnergySeries ((List.range (1 + (y.length - 2048) / 512)).map
            (fun j => ((y.drop (j * 512)).take 2048))))
          (min ((15 * sr) / 512)
            (frameEnergySeries ((List.range (1 + (y.length - 2048) / 512)).map
              (fun j => ((y.drop (j * 512)).take 2048)))).length) * 512 + 15 * sr
      · rw [if_pos hc, if_pos hc]
        congr 1
        omega
      · rw [if_neg hc, if_neg hc]
        congr 1
        omega

/-- C8 witness: the amended statement applied to a 2049-sample constant
buffer at sample rate 136, whose duration just exceeds 15 s. -/
theorem bestSegmentExtract_spec_witness :
    15 < ((List.replicate 2049 (1 : ℚ)).length : ℚ) / ((136 : ℕ) : ℚ) ∧
    2048 ≤ (List.replicate 2049 (1 : ℚ)).length ∧
    (∃ fe : List ℚ,
      (frameSignal (List.replicate 2049 (1 : ℚ)) 2048 512).map frameEnergySeries =
        some fe ∧
      (let tf := min ((15 * 136) / 512) fe.length
       let best := bestStart fe tf
       ∃ seg : List ℚ,
         bestSegmentExtract (List.replicate 2049 1) 136 15 = some seg ∧
         seg.length = 15 * 136 ∧
         best < fe.length - tf + 1 ∧
         (∀ j, j < fe.length - tf + 1 →
           npMean ((fe.drop j).take tf) ≤ npMean ((fe.drop best).take tf)) ∧
         (∀ j, j < best →
           npMean ((fe.drop j).take tf) < npMean ((fe.drop best).take tf)) ∧
         seg = ((List.replicate 2049 (1 : ℚ)).drop
           (if (List.replicate 2049 (1 : ℚ)).length < best * 512 + 15 * 136
             then (List.replicate 2049 (1 : ℚ)).length - 15 * 136
             else best * 512)).take (15 * 136))) :=
  ⟨by norm_num, by norm_num,
    (bestSegmentExtract_spec (List.replicate 2049 1) 136).2.2
      (by norm_num) (by norm_num)⟩

/-- C5 counterexample: with all other stage cores succeeding and the
stage-3 core failing on the buffer [1], the pipeline persists a final
buffer, yet the run is reported unsuccessful: the reported success is not
equivalent to the final stage persisting a buffer, and a stage-3 fallback
alone does make the run unsuccessful. -/
theorem processAudioFile_stage3_cex :
    processAudioFile idStage idStage failStage idStage idStage [1] =
      some (false, some [1]) ∧
    (some [(1 : ℚ)] : Option (List ℚ)).isSome = true :=
  ⟨rfl, rfl⟩

/-- C5 amended: when the stage-3 core fails its output file is an
unmodified copy of its input and the stage reports failure; if the other
four stages succeed the pipeline still persists a final buffer, but the
run is reported unsuccessful, because reported success requires every
stage flag and the persisted final file. -/
theorem processAudioFile_stage3_fallback
    (f1 f2 f3 f4 f5 : List ℚ → Option (List ℚ)) (input : List ℚ)
    (h1 : ∀ b, (f1 b).isSome = true) (h2 : ∀ b, (f2 b).isSome = true)
    (h3 : ∀ b, f3 b = none)
    (h4 : ∀ b, (f4 b).isSome = true) (h5 : ∀ b, (f5 b).isSome = true) :
    (∀ b, runStage3 f3 (some b) = some (some b, false)) ∧
    ∃ out : List ℚ,
      processAudioFile f1 f2 f3 f4 f5 input = some (false, some out) := by
  refine ⟨fun b => by simp [runStage3, h3 b], ?_⟩
  obtain ⟨b1, hb1⟩ := Option.isSome_iff_exists.mp (h1 input)
  obtain ⟨b2, hb2⟩ := Option.isSome_iff_exists.mp (h2 b1)
  obtain ⟨b4, hb4⟩ := Option.isSome_iff_exists.mp (h4 b2)
  obtain ⟨b5, hb5⟩ := Option.isSome_iff_exists.mp (h5 b4)
  refine ⟨b5, ?_⟩
  simp [processAudioFile, runStage, runStage3, hb1, hb2, h3 b2, hb4, hb5]

/-- C5 witness: the amended statement at identity stage cores, a failing
stage-3 core and input buffer [1]. -/
theorem processAudioFile_stage3_fallback_witness :
    (∀ b : List ℚ, (idStage b).isSome = true) ∧
    (∀ b : List ℚ, failStage b = none) ∧
    ((∀ b : List ℚ, runStage3 failStage (some b) = some (some b, false)) ∧
      ∃ out : List ℚ,
        processAudioFile idStage idStage failStage idStage idStage [1] =
          some (false, some out)) :=
  ⟨fun _ => rfl, fun _ => rfl,
    processAudioFile_stage3_fallback idStage idStage failStage idStage idStage [1]
      (fun _ => rfl) (fun _ => rfl) (fun _ => rfl) (fun _ => rfl) (fun _ => rfl)⟩

/-- C6 counterexample: a one-sample buffer is shorter than one analysis
frame, the framing raises, the outer handler returns None, and no
composite score is computed for that input. -/
theorem analyzeAudioFile_short_cex : analyzeAudioFile shortInput = none := rfl

theorem getD_zero_of_all_zero (l : List ℚ) (h : ∀ x ∈ l, x = 0) (i : ℕ) :
    l.getD i 0 = 0 := by
  rcases Nat.lt_or_ge i l.length with hlt | hge
  · rw [List.getD_eq_getElem l 0 hlt]
    exact h _ (List.getElem_mem hlt)
  · rw [List.getD_eq_default l 0 hge]

theorem percentile_all_zero (q : ℚ) (l : List ℚ) (h : ∀ x ∈ l, x = 0) :
    percentile q l = 0 := by
  have hs : ∀ x ∈ List.insertionSort (fun a b => a ≤ b) l, x = 0 := by
    intro x hx
    exact h x ((List.perm_insertionSort (fun a b => a ≤ b) l).mem_iff.mp hx)
  unfold percentile
  by_cases hnil : (List.insertionSort (fun a b => a ≤ b) l).length = 0
  · rw [if_pos hnil]
  · rw [if_neg hnil]
    simp only []
    rw [getD_zero_of_all_zero _ hs, getD_zero_of_all_zero _ hs]
    ring

theorem estimateSNR_all_zero (rms : List ℚ) (h : ∀ x ∈ rms, x = 0) :
    estimateSNR rms = 0 := by
  have hfilter : rms.filter
      (fun e => decide (percentile 10 rms * 2 < e)) = [] := by
    rw [List.filter_eq_nil_iff]
    intro a ha
    rw [h a ha, percentile_all_zero 10 rms h]
    norm_num
  simp only [estimateSNR]
  rw [hfilter]
  simp

theorem silenceMetrics_all_zero (y : List ℚ) (sr : ℕ)
    (hlen : 2048 ≤ y.length) (h : ∀ x ∈ y, x = 0) :
    silenceMetrics y sr = some (0, 1) := by
  have hfs : frameSignal y 2048 512 =
      some ((List.range (1 + (y.length - 2048) / 512)).map
        (fun j => ((y.drop (j * 512)).take 2048))) := by
    unfold frameSignal
    rw [if_neg (Nat.not_lt.mpr hlen)]
  have hfe : ∀ e ∈ frameEnergySeries ((List.range (1 + (y.length - 2048) / 512)).map
      (fun j => ((y.drop (j * 512)).take 2048))), e = 0 := by
    intro e he
    obtain ⟨f, hf, rfl⟩ := List.mem_map.mp he
    obtain ⟨j, _, rfl⟩ := List.mem_map.mp hf
    apply List.sum_eq_zero
    intro z hz
    obtain ⟨a, ha, rfl⟩ := List.mem_map.mp hz
    rw [h a (List.mem_of_mem_drop (List.mem_of_mem_take ha))]
    norm_num
  have hany : ((frameEnergySeries ((List.range (1 + (y.length - 2048) / 512)).map
      (fun j => ((y.drop (j * 512)).take 2048)))).map
        (fun e => decide (percentile 20 (frameEnergySeries
          ((List.range (1 + (y.length - 2048) / 512)).map
            (fun j => ((y.drop (j * 512)).take 2048)))) < e))).any id = false := by
    rw [List.any_eq_false]
    intro b hb
    obtain ⟨e, he, rfl⟩ := List.mem_map.mp hb
    rw [hfe e he, percentile_all_zero 20 _ hfe]
    simp
  unfold silenceMetrics
  rw [hfs, Option.map_some']
  simp only []
  rw [if_neg (by rw [hany]; exact Bool.false_ne_true)]

/-- C6 amended: any input with a nonempty RMS series and at least one full
frame of samples analyzes to a metrics record (no hard failure, the
composite score is computed); on the all-zero degenerate buffer the SNR
sentinel is 0.0, the silence ratio sentinel is 1.0 with effective
duration 0.0, a failing hpss yields the harmonic sentinel 1.0, and the
composite score is computed from these sentinels. A buffer shorter than
one frame, by contrast, fails the framing and analyzes to None. -/
theorem analyzeAudioFile_degenerate (inp : AudioInput)
    (hr : inp.rms ≠ []) (hlen : 2048 ≤ inp.samples.length) :
    (∃ m : Metrics, analyzeAudioFile inp = some m) ∧
    ((∀ x ∈ inp.samples, x = 0) → (∀ x ∈ inp.rms, x = 0) → inp.hpss = none →
      analyzeAudioFile inp = some
        ⟨(inp.samples.length : ℚ) / (inp.sampleRate : ℚ), 0, 1, 0, 1,
          compositeScore ((inp.samples.length : ℚ) / (inp.sampleRate : ℚ)) 0 1 1⟩) := by
  constructor
  · have hfs : frameSignal inp.samples 2048 512 =
        some ((List.range (1 + (inp.samples.length - 2048) / 512)).map
          (fun j => ((inp.samples.drop (j * 512)).take 2048))) := by
      unfold frameSignal
      rw [if_neg (Nat.not_lt.mpr hlen)]
    have hsome : (silenceMetrics inp.samples inp.sampleRate).isSome = true := by
      unfold silenceMetrics
      rw [hfs]
      rfl
    obtain ⟨⟨pe, ps⟩, hsm⟩ := Option.isSome_iff_exists.mp hsome
    exact ⟨_, by unfold analyzeAudioFile; rw [if_neg hr, hsm]⟩
  · intro hy hrms hhp
    have hsm0 := silenceMetrics_all_zero inp.samples inp.sampleRate hlen hy
    have hsnr0 := estimateSNR_all_zero inp.rms hrms
    unfold analyzeAudioFile
    rw [if_neg hr, hsm0]
    simp only []
    rw [hsnr0, hhp]

/-- C6 witness: the amended statement at the all-zero one-frame buffer
with an all-zero RMS series and a failing hpss call. -/
theorem analyzeAudioFile_degenerate_witness :
    zeroInput.rms ≠ [] ∧ 2048 ≤ zeroInput.samples.length ∧
    ((∃ m : Metrics, analyzeAudioFile zeroInput = some m) ∧
     ((∀ x ∈ zeroInput.samples, x = 0) → (∀ x ∈ zeroInput.rms, x = 0) →
      zeroInput.hpss = none →
      analyzeAudioFile zeroInput = some
        ⟨(zeroInput.samples.length : ℚ) / (zeroInput.sampleRate : ℚ), 0, 1, 0, 1,
          compositeScore
            ((zeroInput.samples.length : ℚ) / (zeroInput.sampleRate : ℚ)) 0 1 1⟩)) :=
  ⟨by simp [zeroInput], by simp [zeroInput],
    analyzeAudioFile_degenerate zeroInput (by simp [zeroInput])
      (by simp [zeroInput])⟩

/-- C9: filter_high_quality returns exactly the records meeting all three
criteria, as the filter of the input collection: an order-preserving
sublist of the unmodified input whose members are exactly the input
records satisfying the three predicates. -/
theorem filterHighQuality_spec (results : List Metrics)
    (minScore minDuration maxSilence : ℚ) :
    filterHighQuality results minScore minDuration maxSilence =
      results.filter (fun r => decide (minScore ≤ r.qualityScore ∧
        minDuration ≤ r.duration ∧ r.silenceRatio ≤ maxSilence)) ∧
    (filterHighQuality results minScore minDuration maxSilence).Sublist results ∧
    (∀ r : Metrics,
      r ∈ filterHighQuality results minScore minDuration maxSilence ↔
        r ∈ results ∧ (minScore ≤ r.qualityScore ∧ minDuration ≤ r.duration ∧
          r.silenceRatio ≤ maxSilence)) := by
  have key : ∀ (l : List Metrics) (acc : List Metrics),
      l.foldl (fun filtered r =>
        if minScore ≤ r.qualityScore ∧ minDuration ≤ r.duration ∧
            r.silenceRatio ≤ maxSilence then
          filtered ++ [r]
        else filtered) acc =
        acc ++ l.filter (fun r => decide (minScore ≤ r.qualityScore ∧
          minDuration ≤ r.duration ∧ r.silenceRatio ≤ maxSilence)) := by
    intro l
    induction l with
    | nil => intro acc; simp
    | cons a t ih =>
      intro acc
      rw [List.foldl_cons, List.filter_cons]
      by_cases ha : minScore ≤ a.qualityScore ∧ minDuration ≤ a.duration ∧
          a.silenceRatio ≤ maxSilence
      · rw [if_pos ha, ih, decide_eq_true ha]
        simp
      · rw [if_neg ha, ih, decide_eq_false ha]
        simp
  have h1 : filterHighQuality results minScore minDuration maxSilence =
      results.filter (fun r => decide (minScore ≤ r.qualityScore ∧
        minDuration ≤ r.duration ∧ r.silenceRatio ≤ maxSilence)) := by
    unfold filterHighQuality
    rw [key, List.nil_append]
  refine ⟨h1, ?_, ?_⟩
  · rw [h1]
    exact List.filter_sublist _
  · intro r
    rw [h1, List.mem_filter]
    simp

/-- C10: analyze_all_audio collects exactly the metrics of the files whose
per-file analysis does not return None (every exception, decode failure
included, is caught and mapped to None), sorted by quality score
descending; a file whose analysis fails is omitted while the remaining
files before and after it are processed unchanged. -/
theorem analyzeAllAudio_spec (files pre post : List (Option AudioInput))
    (bad : Option AudioInput) (hbad : analyzeFile bad = none) :
    analyzeAllAudio files =
      sortDescendingByScore (files.filterMap analyzeFile) ∧
    analyzeAllAudio (pre ++ bad :: post) = analyzeAllAudio (pre ++ post) := by
  have key : ∀ (l : List (Option AudioInput)) (acc : List Metrics),
      l.foldl (fun acc f =>
        match analyzeFile f with
        | some m => acc ++ [m]
        | none => acc) acc = acc ++ l.filterMap analyzeFile := by
    intro l
    induction l with
    | nil => intro acc; simp
    | cons a t ih =>
      intro acc
      rw [List.foldl_cons]
      cases ha : analyzeFile a with
      | none =>
        rw [List.filterMap_cons_none ha]
        simp only [ha]
        exact ih acc
      | some m =>
        rw [List.filterMap_cons_some ha]
        simp only [ha]
        rw [ih (acc ++ [m])]
        simp
  constructor
  · unfold analyzeAllAudio
    rw [key, List.nil_append]
  · unfold analyzeAllAudio
    rw [key, key, List.nil_append, List.nil_append]
    congr 1
    rw [List.filterMap_append, List.filterMap_append,
      List.filterMap_cons_none hbad]

/-- C10 witness: a decode failure (none) and a too-short buffer both
analyze to None and are omitted from the collected results. -/
theorem analyzeAllAudio_spec_witness :
    analyzeFile (some shortInput) = none ∧
    (analyzeAllAudio [none] =
        sortDescendingByScore ([(none : Option AudioInput)].filterMap analyzeFile) ∧
      analyzeAllAudio ([] ++ some shortInput :: []) = analyzeAllAudio ([] ++ [])) :=
  ⟨rfl, analyzeAllAudio_spec [none] [] [] (some shortInput) rfl⟩

end TTS
